import Mathlib

/-!
Verification development for the documentation-and-API-contract validator of
the SolidRusT AI docs repository.

The repository ships Markdown content, a site-generator configuration
(`astro.config.mjs`), a small TypeScript config module
(`src/config/versions.ts`), and prose command scripts.  The validator itself
is specified but not implemented as code; its modules below are therefore
modelled from the spec (each such definition says so in its doc comment),
while `versions.ts`, the sidebar of `astro.config.mjs`, and the content
frontmatter of the content tree is embedded directly from the source files.
-/

namespace DocsValidator

/-- Severity of a `Finding` (spec §3): one of error, warning, info. -/
inductive Severity where
  | error
  | warning
  | info
deriving DecidableEq, Repr

/-- Modelled from the spec: a single validation result (spec §3 `Finding`).
The category is kept as its literal spec label ("structure", "frontmatter",
"link", "contract-drift", "convention"). -/
structure Finding where
  severity : Severity
  category : String
  location : String
  message : String
deriving DecidableEq, Repr

/-- An outbound reference of a page (spec §3 `DocumentPage.links`):
internal (slug plus optional anchor) or external (URL, not crawled). -/
inductive PageLink where
  | internal (slug : String) (anchor : Option String)
  | external (url : String)
deriving DecidableEq, Repr

/-- Modelled from the spec: one documentation source file (spec §3
`DocumentPage`).  `title`/`description` are `none` when the frontmatter
field is absent; `headings` carries (level, text); `excluded` marks a page
explicitly excluded from the orphan check. -/
structure DocumentPage where
  path : String
  title : Option String
  description : Option String
  headings : List (Nat × String)
  codeBlocks : List (String × String)
  links : List PageLink
  excluded : Bool := false
deriving DecidableEq, Repr

/-- Modelled from the spec: a navigation declaration (spec §3
`SidebarEntry`). -/
structure SidebarEntry where
  slug : String
  label : String
  group : String
deriving DecidableEq, Repr

/-! ### Anchor computation (spec §4.1)

The loader computes a slug-style anchor id by lower-casing, replacing
whitespace runs with hyphens, and stripping punctuation; within-page
collisions are resolved by numeric suffixing. -/

/-- Modelled from the spec: replace each whitespace run with a single
hyphen. -/
def squashSpaces : List Char → List Char
  | [] => []
  | c :: rest =>
      if c.isWhitespace then
        match squashSpaces rest with
        | '-' :: tail => '-' :: tail
        | tail => '-' :: tail
      else c :: squashSpaces rest

/-- Modelled from the spec: base anchor of a heading text — lower-case,
whitespace runs become single hyphens, punctuation is stripped. -/
def anchorOf (text : String) : String :=
  String.mk ((squashSpaces text.toList).filterMap fun c =>
    if c.isAlpha || c.isDigit then some c.toLower
    else if c = '-' then some c
    else none)

/-- Modelled from the spec: collision resolution by numeric suffixing.
`suffixed a k` is `a` itself for the first occurrence (`k = 0`) and
`a-k` for the `k`-th collision. -/
def suffixed (a : String) (k : Nat) : String :=
  if k = 0 then a else a ++ "-" ++ toString k

/-- Modelled from the spec (Document Model Loader): assign unique anchor
ids to a list of base anchors, counting prior occurrences in a fold. -/
def uniquifyFrom (seen : List String) : List String → List String
  | [] => []
  | a :: rest =>
      suffixed a (seen.count a) :: uniquifyFrom (a :: seen) rest

/-- Modelled from the spec: the ordered anchor ids the loader computes for
a page. -/
def pageAnchors (p : DocumentPage) : List String :=
  uniquifyFrom [] (p.headings.map (fun h => anchorOf h.2))

/-- Modelled from the spec (downstream renderer, spec §4.1): the renderer
is presumed to use the very same rule; written here independently, indexing
each heading by the number of earlier headings sharing its base anchor. -/
def rendererAnchors (p : DocumentPage) : List String :=
  let bases := p.headings.map (fun h => anchorOf h.2)
  (List.range bases.length).map fun i =>
    suffixed (bases.getD i "") ((bases.take i).count (bases.getD i ""))

/-! ### Link Graph Validator (spec §4.3) -/

/-- Modelled from the spec: the Finding (if any) one outbound link of a
page at `loc` produces — an error for an internal link to a non-existent
slug, an error for an anchored internal link whose anchor is missing on
the target page; external links produce nothing. -/
def linkFindingOf (docs : List DocumentPage) (loc : String) (l : PageLink) :
    Option Finding :=
  match l with
  | PageLink.external _ => none
  | PageLink.internal slug anchor =>
      match docs.find? (fun p => p.path == slug) with
      | none =>
          some { severity := Severity.error, category := "link",
                 location := loc,
                 message := "dangling internal link to " ++ slug }
      | some target =>
          match anchor with
          | none => none
          | some a =>
              if a ∈ pageAnchors target then none
              else some { severity := Severity.error, category := "link",
                          location := loc,
                          message := "missing anchor " ++ a ++ " on " ++ slug }

/-- Modelled from the spec: the Findings the Link Graph Validator emits
for one page; only existence is checked, never acyclicity. -/
def linkFindings (docs : List DocumentPage) (page : DocumentPage) : List Finding :=
  page.links.filterMap (linkFindingOf docs page.path)

/-- Modelled from the spec: Link Graph Validator over the whole document
set. -/
def allLinkFindings (docs : List DocumentPage) : List Finding :=
  docs.flatMap (linkFindings docs)

/-- The dangling-link Finding for a link at `loc` targeting `slug`. -/
def dangFinding (loc slug : String) : Finding :=
  { severity := Severity.error, category := "link", location := loc,
    message := "dangling internal link to " ++ slug }

/-- Is a link an internal link targeting `slug`? -/
def isLinkTo (slug : String) : PageLink → Bool
  | PageLink.internal s _ => s == slug
  | PageLink.external _ => false

/-- Does a link fully resolve in a document set: internal target slug
exists, and the anchor (when present) exists on every page carrying the
target slug?  External links always resolve (they are not crawled). -/
def resolvesIn (docs : List DocumentPage) : PageLink → Bool
  | PageLink.internal s a =>
      docs.any (fun q => q.path == s) &&
      (match a with
       | none => true
       | some an => docs.all fun q => q.path != s || decide (an ∈ pageAnchors q))
  | PageLink.external _ => true

/-! ### Structural Validator (spec §4.2) -/

/-- Modelled from the spec: Findings of the Structural Validator — missing
`title` (error) / `description` (warning) per page, a sidebar slug with no
matching page (error, category structure), an orphan page in no sidebar
entry (warning), and duplicate sidebar slugs (error). -/
def frontmatterFindings (p : DocumentPage) : List Finding :=
  (match p.title with
   | none => [{ severity := Severity.error, category := "frontmatter",
                location := p.path, message := "missing title" }]
   | some _ => []) ++
  (match p.description with
   | none => [{ severity := Severity.warning, category := "frontmatter",
                location := p.path, message := "missing description" }]
   | some _ => [])

/-- The broken-navigation Finding for a sidebar slug with no page. -/
def sidebarDangling (slug : String) : Finding :=
  { severity := Severity.error, category := "structure", location := slug,
    message := "sidebar slug has no page" }

/-- The orphan-content Finding for a page absent from every sidebar. -/
def orphanWarning (path : String) : Finding :=
  { severity := Severity.warning, category := "structure", location := path,
    message := "orphan page not in sidebar" }

/-- Modelled from the spec: error Findings for sidebar entries whose slug
matches no page. -/
def danglingSidebarFindings (docs : List DocumentPage)
    (sidebar : List SidebarEntry) : List Finding :=
  sidebar.filterMap fun e =>
    if docs.any (fun p => p.path == e.slug) then none
    else some (sidebarDangling e.slug)

/-- Modelled from the spec: warning Findings for pages (not explicitly
excluded) that appear in no sidebar entry. -/
def orphanFindings (docs : List DocumentPage)
    (sidebar : List SidebarEntry) : List Finding :=
  docs.filterMap fun p =>
    if p.excluded then none
    else if sidebar.any (fun e => e.slug == p.path) then none
    else some (orphanWarning p.path)

/-- Modelled from the spec: error Findings for duplicate sidebar slugs
(each entry whose slug already occurred earlier in the list). -/
def dupSidebarFindings : List SidebarEntry → List Finding
  | [] => []
  | e :: rest =>
      (if rest.any (fun e2 => e2.slug == e.slug) then
        [{ severity := Severity.error, category := "structure",
           location := e.slug, message := "duplicate sidebar slug" }]
      else []) ++ dupSidebarFindings rest

/-- Modelled from the spec: the full Structural Validator. -/
def structuralFindings (docs : List DocumentPage)
    (sidebar : List SidebarEntry) : List Finding :=
  docs.flatMap frontmatterFindings
    ++ danglingSidebarFindings docs sidebar
    ++ orphanFindings docs sidebar
    ++ dupSidebarFindings sidebar

/-! ### API Contract Loader (spec §4.4) -/

/-- Modelled from the spec: a contract endpoint — (HTTP method, path
template) with a declared parameter name list. -/
structure Endpoint where
  method : String
  path : String
  params : List String
deriving DecidableEq, Repr

/-- Modelled from the spec: the normalized `ApiContract` model; `models` is
the optional live models-list data source. -/
structure ApiContract where
  endpoints : List Endpoint
  models : Option (List String)
deriving DecidableEq, Repr

/-- Modelled from the spec: the raw OpenAPI-shaped document — presence of
the version marker and `info`, and an optional `paths` mapping from path
template to method-keyed operations (each with its parameter names). -/
structure RawContract where
  hasVersionMarker : Bool
  hasInfo : Bool
  paths : Option (List (String × List (String × List String)))
deriving DecidableEq, Repr

/-- Modelled from the spec: failure modes of the API Contract Loader. -/
inductive ContractLoadError where
  | missingField (name : String)
  | duplicateEndpoint (path method : String)
deriving DecidableEq, Repr

/-- Modelled from the spec: the flattened (path, method) keys of a raw
paths mapping. -/
def pathMethodPairs (ps : List (String × List (String × List String))) :
    List (String × String) :=
  ps.flatMap fun pm => pm.2.map fun op => (pm.1, op.1)

/-- Modelled from the spec: first duplicated element of a list, if any. -/
def findDup : List (String × String) → Option (String × String)
  | [] => none
  | p :: rest => if p ∈ rest then some p else findDup rest

/-- Modelled from the spec: parse a raw specification document into the
`ApiContract` model, or fail with a `ContractLoadError` when a required
top-level field (version marker, info, paths) is absent or a path+method
pair is duplicated. -/
def loadContract (raw : RawContract) : Except ContractLoadError ApiContract :=
  if !raw.hasVersionMarker then Except.error (ContractLoadError.missingField "openapi")
  else if !raw.hasInfo then Except.error (ContractLoadError.missingField "info")
  else match raw.paths with
    | none => Except.error (ContractLoadError.missingField "paths")
    | some ps =>
        match findDup (pathMethodPairs ps) with
        | some pm => Except.error (ContractLoadError.duplicateEndpoint pm.1 pm.2)
        | none =>
            Except.ok
              { endpoints := ps.flatMap fun pm =>
                  pm.2.map fun op =>
                    { method := op.1, path := pm.1, params := op.2 },
                models := none }

/-! ### Contract Drift Detector (spec §4.5) -/

/-- Modelled from the spec: an assertion extracted from a page that it
documents a given (method, path) with given parameter names and example
model identifiers. -/
structure DocumentedEndpointClaim where
  page : String
  method : String
  path : String
  params : List String
  modelIds : List String
deriving DecidableEq, Repr

/-- Modelled from the spec: split a char list on a separator, keeping
empty segments. -/
def splitChar (sep : Char) : List Char → List (List Char)
  | [] => [[]]
  | c :: rest =>
      let r := splitChar sep rest
      if c = sep then [] :: r
      else match r with
        | [] => [[c]]
        | seg :: segs => (c :: seg) :: segs

/-- Modelled from the spec: normalize one path segment — a
placeholder-shaped segment (braces around a name) becomes the bare
placeholder, independent of the parameter name. -/
def normalizeSegment (seg : List Char) : List Char :=
  match seg with
  | c :: rest =>
      if c = '\x7b' ∧ seg.getLast? = some '\x7d' then ['\x7b', '\x7d']
      else c :: rest
  | [] => []

/-- Modelled from the spec: normalize a path template so placeholder-style
segments are comparable regardless of the parameter name. -/
def normalizePath (path : String) : String :=
  let segs := (splitChar '/' path.toList).map normalizeSegment
  String.mk ((segs.intersperse ['/']).flatten)

/-- Modelled from the spec: does the contract declare an endpoint matching
a claim exactly on method plus normalized path template? -/
def matchesClaim (c : ApiContract) (cl : DocumentedEndpointClaim) : Bool :=
  c.endpoints.any fun e =>
    e.method == cl.method && normalizePath e.path == normalizePath cl.path

/-- The drift-error Finding for a claim with no matching endpoint. -/
def driftError (cl : DocumentedEndpointClaim) : Finding :=
  { severity := Severity.error, category := "contract-drift",
    location := cl.page,
    message := "no contract endpoint for " ++ cl.method ++ " " ++ cl.path }

/-- Modelled from the spec: warnings for documented parameter names absent
from the declared parameter list of the matching contract endpoint
(case-sensitive exact match). -/
def paramWarnings (c : ApiContract) (cl : DocumentedEndpointClaim) :
    List Finding :=
  (c.endpoints.filter fun e =>
      e.method == cl.method && normalizePath e.path == normalizePath cl.path).flatMap
    fun e =>
      cl.params.filterMap fun pn =>
        if pn ∈ e.params then none
        else some { severity := Severity.warning, category := "contract-drift",
                    location := cl.page,
                    message := "documented parameter " ++ pn ++ " absent from contract" }

/-- Modelled from the spec: the Findings one claim produces — an error
when no contract endpoint matches, parameter warnings otherwise. -/
def claimFindings (c : ApiContract) (cl : DocumentedEndpointClaim) :
    List Finding :=
  if matchesClaim c cl then paramWarnings c cl else [driftError cl]

/-- Modelled from the spec: warnings for documented model identifiers
absent from the models data source, when that source was supplied. -/
def modelWarnings (claims : List DocumentedEndpointClaim)
    (c : ApiContract) : List Finding :=
  match c.models with
  | none => []
  | some ms =>
      claims.flatMap fun cl =>
        cl.modelIds.filterMap fun m =>
          if m ∈ ms then none
          else some { severity := Severity.warning, category := "contract-drift",
                      location := cl.page,
                      message := "unknown model identifier " ++ m }

/-- Modelled from the spec: info Findings for contract endpoints with zero
documented claims (coverage gaps). -/
def coverageInfos (claims : List DocumentedEndpointClaim)
    (c : ApiContract) : List Finding :=
  c.endpoints.filterMap fun e =>
    if claims.any (fun cl =>
        e.method == cl.method && normalizePath e.path == normalizePath cl.path) then none
    else some { severity := Severity.info, category := "contract-drift",
                location := e.path,
                message := "endpoint " ++ e.method ++ " " ++ e.path ++ " has no documentation" }

/-- Modelled from the spec: the Contract Drift Detector — an error per
claim with no matching endpoint, a warning per documented parameter name
absent from the matching endpoint, a warning per documented model
identifier absent from the models data source when supplied, and an info
per contract endpoint with zero claims. -/
def driftFindings (claims : List DocumentedEndpointClaim)
    (c : ApiContract) : List Finding :=
  claims.flatMap (claimFindings c) ++ modelWarnings claims c
    ++ coverageInfos claims c

/-- Modelled from the spec: HTTP methods recognised when scanning code
blocks for endpoint claims. -/
def httpMethods : List String :=
  ["GET", "POST", "PUT", "PATCH", "DELETE", "HEAD", "OPTIONS"]

/-- Modelled from the spec: parse one code-block line into a claim when it
matches the method-plus-path HTTP request pattern. -/
def parseClaimLine (page : String) (line : List Char) :
    Option DocumentedEndpointClaim :=
  match (splitChar ' ' line).filter (· ≠ []) with
  | m :: p :: _ =>
      if String.mk m ∈ httpMethods ∧ p.head? = some '/' then
        some { page := page, method := String.mk m, path := String.mk p,
               params := [], modelIds := [] }
      else none
  | _ => none

/-- Modelled from the spec: extract `DocumentedEndpointClaim`s by scanning
every code block of every page. -/
def extractClaims (docs : List DocumentPage) : List DocumentedEndpointClaim :=
  docs.flatMap fun pg =>
    pg.codeBlocks.flatMap fun cb =>
      (splitChar '\n' cb.2.toList).filterMap (parseClaimLine pg.path)

/-! ### Optional network checks (spec §4.3 / §7) -/

/-- Modelled from the spec: outcome of an optional network call — an HTTP
status, a timeout, or a refused connection. -/
inductive NetworkOutcome where
  | status (code : Nat)
  | timeout
  | connRefused
deriving DecidableEq, Repr

/-- Modelled from the spec: a network call succeeds exactly on a 2xx/3xx
status. -/
def isNetworkSuccess : NetworkOutcome → Bool
  | NetworkOutcome.status c => 200 ≤ c && c < 400
  | NetworkOutcome.timeout => false
  | NetworkOutcome.connRefused => false

/-- Modelled from the spec: the Finding (if any) an external-link liveness
check produces — a warning on failure, nothing on success. -/
def networkFinding (url : String) (o : NetworkOutcome) : Option Finding :=
  if isNetworkSuccess o then none
  else some { severity := Severity.warning, category := "link",
              location := url, message := "external link check failed" }

/-- Modelled from the spec: Findings of all enabled network checks. -/
def networkFindings (checks : List (String × NetworkOutcome)) : List Finding :=
  checks.filterMap fun c => networkFinding c.1 c.2

/-! ### Report Aggregator and pipeline (spec §4.6, §6) -/

/-- Overall run result (spec §4.6). -/
inductive RunStatus where
  | success
  | successWithWarnings
  | failure
deriving DecidableEq, Repr

/-- Modelled from the spec: rank used to group Findings by severity. -/
def sevRank : Severity → Nat
  | Severity.error => 0
  | Severity.warning => 1
  | Severity.info => 2

/-- Modelled from the spec: the grouping key — severity, then category,
then location (lexicographic). -/
def findingKey (f : Finding) : Lex (Nat × Lex (String × String)) :=
  toLex (sevRank f.severity, toLex (f.category, f.location))

/-- Modelled from the spec: boolean order on Findings by grouping key. -/
def keyLE (a b : Finding) : Bool := decide (findingKey a ≤ findingKey b)

/-- Modelled from the spec: does any error-severity Finding exist? -/
def hasError (l : List Finding) : Bool :=
  l.any fun f => f.severity == Severity.error

/-- Modelled from the spec: `failure` if any error exists,
`success-with-warnings` if only warnings/info exist, `success` otherwise. -/
def statusOf (l : List Finding) : RunStatus :=
  if hasError l then RunStatus.failure
  else if l.isEmpty then RunStatus.success
  else RunStatus.successWithWarnings

/-- The structured run result (spec §6): status, per-severity counts, and
the findings grouped by the severity-category-location key. -/
structure RunResult where
  status : RunStatus
  counts : Nat × Nat × Nat
  findings : List Finding
deriving DecidableEq, Repr

/-- Modelled from the spec: the Report Aggregator — order-independent
collection, counting and grouping; it never raises. -/
def aggregateReport (l : List Finding) : RunResult :=
  { status := statusOf l,
    counts := (l.countP (fun f => f.severity == Severity.error),
               l.countP (fun f => f.severity == Severity.warning),
               l.countP (fun f => f.severity == Severity.info)),
    findings := l.mergeSort keyLE }

/-- Modelled from the spec: the inputs of one validation run — document tree,
sidebar declaration, raw contract document. -/
structure ValidationInput where
  docs : List DocumentPage
  sidebar : List SidebarEntry
  rawContract : RawContract
deriving DecidableEq, Repr

/-- Modelled from the spec: the single synthetic fatal Finding a contract
load failure surfaces as (spec §4.6 / §7). -/
def contractFatalFinding (e : ContractLoadError) : Finding :=
  { severity := Severity.error, category := "structure",
    location := "contract",
    message := match e with
      | ContractLoadError.missingField n => "contract load failed: missing " ++ n
      | ContractLoadError.duplicateEndpoint p m =>
          "contract load failed: duplicate " ++ m ++ " " ++ p }

/-- Modelled from the spec: all Findings of one run — Structural and Link
validation always run on the document set; the Contract Drift Detector
runs only when the contract loads, else its failure becomes the single
fatal Finding. -/
def collectFindings (inp : ValidationInput) : List Finding :=
  structuralFindings inp.docs inp.sidebar
    ++ allLinkFindings inp.docs
    ++ match loadContract inp.rawContract with
       | Except.ok c => driftFindings (extractClaims inp.docs) c
       | Except.error e => [contractFatalFinding e]

/-- Modelled from the spec: the whole validator run (network checks
disabled, the default). -/
def runValidator (inp : ValidationInput) : RunResult :=
  aggregateReport (collectFindings inp)

/-- Modelled from the spec: the validator run with the optional network
mode enabled; the outcome of each check is supplied as data. -/
def runValidatorNetwork (inp : ValidationInput)
    (checks : List (String × NetworkOutcome)) : RunResult :=
  aggregateReport (collectFindings inp ++ networkFindings checks)

/-- Modelled from the spec: process exit code — 0 exactly when the status
is not `failure`. -/
def exitCode (r : RunResult) : Nat :=
  if r.status = RunStatus.failure then 1 else 0

/-! ### Embedding of `src/config/versions.ts` (real source) -/

/-- `APIVersion` interface of `src/config/versions.ts`. -/
structure APIVersion where
  id : String
  label : String
  releaseDate : String
  current : Bool
  deprecated : Option Bool := none
  deprecationNotice : Option String := none
  migrationGuide : Option String := none
  changelogAnchor : Option String := none
deriving DecidableEq, Repr

/-- The shipped `API_VERSIONS` constant of `src/config/versions.ts`. -/
def API_VERSIONS : List APIVersion :=
  [{ id := "v1", label := "v1 (Current)", releaseDate := "2026-01-16",
     current := true, changelogAnchor := some "#2026-01-16---public-launch" }]

/-- `getCurrentVersion` of `src/config/versions.ts`, parameterised by the
version list it reads: `versions.find(v => v.current) || versions[0]`,
where an out-of-bounds `versions[0]` (empty list) is JavaScript
`undefined`, modelled as `none`. -/
def getCurrentVersionOn (versions : List APIVersion) : Option APIVersion :=
  match versions.find? (fun v => v.current) with
  | some v => some v
  | none => versions.head?

/-- `getCurrentVersion()` as shipped, applied to `API_VERSIONS`. -/
def getCurrentVersion : Option APIVersion :=
  getCurrentVersionOn API_VERSIONS

/-- `getVersionById` of `src/config/versions.ts`. -/
def getVersionById (id : String) : Option APIVersion :=
  API_VERSIONS.find? (fun v => v.id == id)

/-- `hasMultipleVersions` of `src/config/versions.ts`. -/
def hasMultipleVersions : Bool :=
  API_VERSIONS.length > 1

/-! ### Embedding of the repository content tree (real source)

Frontmatter (path, title, description) transcribed from every page under
`src/content/docs/`. -/

/-- The (slug, title, description) frontmatter of each page of the content
tree, transcribed from the source files. -/
def repoFrontmatter : List (String × String × String) :=
  [("getting-started/quickstart", "Quick Start",
    "Make your first API call to SolidRusT AI"),
   ("getting-started/authentication", "Authentication",
    "Authenticate requests to the SolidRusT AI API"),
   ("api/overview", "API Overview",
    "Overview of the SolidRusT AI API endpoints"),
   ("api/models", "Models",
    "List available models on the SolidRusT AI platform"),
   ("sdks/overview", "SDK Overview",
    "Official SDKs for the SolidRusT AI API"),
   ("sdks/python", "Python SDK",
    "Python client library for SolidRusT AI"),
   ("sdks/javascript", "JavaScript/TypeScript SDK",
    "JavaScript and TypeScript client library for SolidRusT AI"),
   ("sdks/usage", "SDK Usage Guide",
    "Complete examples for using SolidRusT AI API with Python, JavaScript, and cURL"),
   ("guides/rag", "RAG Applications",
    "Build retrieval-augmented generation applications with SolidRusT AI"),
   ("guides/streaming", "Streaming Responses",
    "Real-time streaming with Server-Sent Events"),
   ("guides/context-limits", "Context Limits",
    "Token limits, context windows, and model capabilities"),
   ("guides/agent-endpoints", "Agent Endpoints",
    "Tool-enabled AI agents with built-in RAG capabilities"),
   ("examples/agent-chat", "Agent Chat Example",
    "Build AI agents with tool-calling and RAG capabilities"),
   ("examples/document-qa", "Document Q&A Example",
    "Build a document Q&A system using RAG"),
   ("examples/code-generation", "Code Generation Example",
    "Generate and explain code using SolidRusT AI")]

/-- The content-tree pages, with only the frontmatter projection embedded
(the fields the frontmatter rules read); headings, code blocks and links
are not transcribed here and are left empty. -/
def repoFrontmatterPages : List DocumentPage :=
  repoFrontmatter.map fun t =>
    { path := t.1, title := some t.2.1, description := some t.2.2,
      headings := [], codeBlocks := [], links := [] }

/-- The (level, text) headings of `src/content/docs/api/models.md`,
transcribed from the source file. -/
def modelsHeadings : List (Nat × String) :=
  [(2, "List Models"), (3, "Example Request"), (3, "Response"),
   (2, "Available Models"), (3, "Chat Models"), (3, "Embedding Models"),
   (2, "Model Selection"), (2, "Failover Behavior")]

/-- The sidebar of `astro.config.mjs`, transcribed as (slug, label, group)
entries. -/
def repoSidebar : List SidebarEntry :=
  [{ slug := "getting-started/introduction", label := "Introduction", group := "Getting Started" },
   { slug := "getting-started/quickstart", label := "Quick Start", group := "Getting Started" },
   { slug := "getting-started/api-keys", label := "API Keys", group := "Getting Started" },
   { slug := "getting-started/authentication", label := "Authentication", group := "Getting Started" },
   { slug := "api/overview", label := "Overview", group := "API Reference" },
   { slug := "api/chat-completions", label := "Chat Completions", group := "API Reference" },
   { slug := "api/embeddings", label := "Embeddings", group := "API Reference" },
   { slug := "api/models", label := "Models", group := "API Reference" },
   { slug := "api/errors", label := "Error Handling", group := "API Reference" },
   { slug := "sdks/overview", label := "Overview", group := "SDKs" },
   { slug := "sdks/python", label := "Python", group := "SDKs" },
   { slug := "sdks/javascript", label := "JavaScript/TypeScript", group := "SDKs" },
   { slug := "guides/rag", label := "RAG Applications", group := "Guides" },
   { slug := "guides/streaming", label := "Streaming Responses", group := "Guides" },
   { slug := "guides/rate-limits", label := "Rate Limits", group := "Guides" },
   { slug := "guides/documentation-style", label := "Documentation Style", group := "Guides" },
   { slug := "examples/chatbot", label := "Chat Bot", group := "Examples" },
   { slug := "examples/agent-chat", label := "Agent Chat", group := "Examples" },
   { slug := "examples/semantic-search", label := "Semantic Search", group := "Examples" },
   { slug := "examples/document-qa", label := "Document Q&A", group := "Examples" },
   { slug := "examples/code-generation", label := "Code Generation", group := "Examples" },
   { slug := "changelog", label := "Changelog", group := "" }]

end DocsValidator

namespace DocsValidator

theorem anchorOf_chat_models : anchorOf "Chat Models" = "chat-models" := by decide

theorem normalizePath_placeholder_free : normalizePath "/v1/models/\x7bid\x7d" = normalizePath "/v1/models/\x7bmodel\x7d" := by decide

/-- Helper: `hasError` is the existence of an error-severity Finding. -/
lemma hasError_iff (l : List Finding) :
    hasError l = true ↔ ∃ f ∈ l, f.severity = Severity.error := by
  simp [hasError, List.any_eq_true]

/-- Helper: `hasError` is false exactly when no Finding has error
severity. -/
lemma hasError_eq_false_iff (l : List Finding) :
    hasError l = false ↔ ∀ f ∈ l, f.severity ≠ Severity.error := by
  simp [hasError, List.any_eq_false]

/-- Helper: the empty-list property transfers along a permutation. -/
lemma perm_nil_iff {α : Type} {l1 l2 : List α} (h : l1.Perm l2) :
    l1 = [] ↔ l2 = [] := by
  rw [← List.length_eq_zero, ← List.length_eq_zero, h.length_eq]

/-- Helper: `statusOf` is `failure` exactly when an error exists. -/
lemma statusOf_eq_failure (l : List Finding) :
    statusOf l = RunStatus.failure ↔ hasError l = true := by
  unfold statusOf
  by_cases he : hasError l = true
  · simp [he]
  · by_cases hemp : l.isEmpty <;> simp [he, hemp]

/-- Helper: `statusOf` is `success` exactly when there is no Finding. -/
lemma statusOf_eq_success (l : List Finding) :
    statusOf l = RunStatus.success ↔ l = [] := by
  unfold statusOf
  by_cases he : hasError l = true
  · simp only [he, if_true]
    constructor
    · intro hcon; exact absurd hcon (by simp)
    · rintro rfl; simp [hasError] at he
  · by_cases hemp : l.isEmpty
    · simp [he, hemp, List.isEmpty_iff.mp hemp, hasError]
    · simp only [he, if_false, Bool.false_eq_true, hemp]
      simp [List.isEmpty_iff] at hemp
      simp [hemp]

/-- Helper: `statusOf` is `success-with-warnings` exactly when Findings
exist but none is an error. -/
lemma statusOf_eq_sww (l : List Finding) :
    statusOf l = RunStatus.successWithWarnings ↔
      (l ≠ [] ∧ ∀ f ∈ l, f.severity ≠ Severity.error) := by
  unfold statusOf
  by_cases he : hasError l = true
  · obtain ⟨f, hf, hsev⟩ := (hasError_iff l).mp he
    simp only [he, if_true]
    constructor
    · intro hcon; exact absurd hcon (by simp)
    · rintro ⟨-, hall⟩; exact absurd hsev (hall f hf)
  · have hall := (hasError_eq_false_iff l).mp (by simpa using he)
    by_cases hemp : l.isEmpty
    · simp [he, hemp, List.isEmpty_iff.mp hemp, hasError]
    · rw [if_neg he, if_neg (by simpa using hemp)]
      simp [List.isEmpty_iff] at hemp
      exact ⟨fun _ => ⟨hemp, hall⟩, fun _ => rfl⟩

/-- Helper: a successful `find?` on the `current` flag splits the list at
the first current entry. -/
lemma find_current_first (vs : List APIVersion) (v : APIVersion)
    (h : vs.find? (fun u => u.current) = some v) :
    ∃ pre post, vs = pre ++ v :: post ∧ v.current = true
      ∧ ∀ u ∈ pre, u.current = false := by
  induction vs with
  | nil => simp at h
  | cons x rest ih =>
      by_cases hx : x.current = true
      · rw [List.find?_cons_of_pos _ hx] at h
        obtain rfl : x = v := by injection h
        exact ⟨[], rest, rfl, hx, by simp⟩
      · rw [List.find?_cons_of_neg _ (by simpa using hx)] at h
        obtain ⟨pre, post, hsplit, hcur, hpre⟩ := ih h
        refine ⟨x :: pre, post, by simp [hsplit], hcur, ?_⟩
        intro u hu
        rcases List.mem_cons.mp hu with rfl | hu
        · simpa using hx
        · exact hpre u hu

/-- C9: `getCurrentVersion` in `src/config/versions.ts` is total on every
non-empty version list: it returns the first entry whose `current` flag is
set when one exists and otherwise falls back to the head of the list,
never failing; on the shipped `API_VERSIONS` it returns the `v1` entry. -/
theorem getCurrentVersion_total_first (vs : List APIVersion) (h : vs ≠ []) :
    (getCurrentVersionOn vs).isSome = true
    ∧ ((∃ v ∈ vs, v.current = true) →
        ∃ pre v post, vs = pre ++ v :: post ∧ v.current = true
          ∧ (∀ u ∈ pre, u.current = false) ∧ getCurrentVersionOn vs = some v)
    ∧ ((∀ v ∈ vs, v.current = false) → getCurrentVersionOn vs = vs.head?)
    ∧ Option.map (fun v => v.id) getCurrentVersion = some "v1" := by
  refine ⟨?_, ?_, ?_, by decide⟩
  · cases hf : vs.find? (fun u => u.current) with
    | some v => simp [getCurrentVersionOn, hf]
    | none =>
        simp only [getCurrentVersionOn, hf]
        cases vs with
        | nil => exact absurd rfl h
        | cons x rest => simp
  · intro hex
    cases hf : vs.find? (fun u => u.current) with
    | some v =>
        obtain ⟨pre, post, hsplit, hcur, hpre⟩ := find_current_first vs v hf
        exact ⟨pre, v, post, hsplit, hcur, hpre, by simp [getCurrentVersionOn, hf]⟩
    | none =>
        obtain ⟨v, hv, hcur⟩ := hex
        have := List.find?_eq_none.mp hf v hv
        simp [hcur] at this
  · intro hall
    have hf : vs.find? (fun u => u.current) = none :=
      List.find?_eq_none.mpr fun v hv => by simp [hall v hv]
    simp [getCurrentVersionOn, hf]

/-- Witness for C9 at the shipped `API_VERSIONS`. -/
theorem getCurrentVersion_total_first_witness :
    (getCurrentVersionOn API_VERSIONS).isSome = true
    ∧ Option.map (fun v => v.id) getCurrentVersion = some "v1" :=
  ⟨(getCurrentVersion_total_first API_VERSIONS (by decide)).1,
   (getCurrentVersion_total_first API_VERSIONS (by decide)).2.2.2⟩

/-- C10: every page of the repository content tree declares a non-empty
title and a non-empty description in its frontmatter, so the missing-title
(error) and missing-description (warning) rules produce zero Findings on
every page. -/
theorem repo_frontmatter_complete (p : DocumentPage)
    (hp : p ∈ repoFrontmatterPages) :
    p.title.isSome = true ∧ p.title ≠ some "" ∧ p.description.isSome = true
      ∧ p.description ≠ some "" ∧ frontmatterFindings p = [] := by
  fin_cases hp <;> decide

/-- C1: for every input set, the run status is `failure` iff an
error-severity Finding exists, `success-with-warnings` iff only
warning/info Findings exist, `success` iff there is no Finding, and the
exit code is 0 exactly when the status is not `failure` — so warnings and
info never change the exit status. -/
theorem run_status_iff_exit (inp : ValidationInput) :
    ((runValidator inp).status = RunStatus.failure ↔
        ∃ f ∈ (runValidator inp).findings, f.severity = Severity.error)
    ∧ ((runValidator inp).status = RunStatus.successWithWarnings ↔
        ((runValidator inp).findings ≠ [] ∧
          ∀ f ∈ (runValidator inp).findings, f.severity ≠ Severity.error))
    ∧ ((runValidator inp).status = RunStatus.success ↔
        (runValidator inp).findings = [])
    ∧ (exitCode (runValidator inp) = 0 ↔
        (runValidator inp).status ≠ RunStatus.failure) := by
  have hp : ((collectFindings inp).mergeSort keyLE).Perm (collectFindings inp) :=
    List.mergeSort_perm _ _
  have hfind : (runValidator inp).findings = (collectFindings inp).mergeSort keyLE := rfl
  have hstat : (runValidator inp).status = statusOf (collectFindings inp) := rfl
  refine ⟨?_, ?_, ?_, ?_⟩
  · rw [hstat, hfind, statusOf_eq_failure, hasError_iff]
    constructor
    · rintro ⟨f, hf, hs⟩; exact ⟨f, hp.mem_iff.mpr hf, hs⟩
    · rintro ⟨f, hf, hs⟩; exact ⟨f, hp.mem_iff.mp hf, hs⟩
  · rw [hstat, hfind, statusOf_eq_sww]
    constructor
    · rintro ⟨hne, hall⟩
      exact ⟨fun hcon => hne ((perm_nil_iff hp).mp hcon),
             fun f hf => hall f (hp.mem_iff.mp hf)⟩
    · rintro ⟨hne, hall⟩
      exact ⟨fun hcon => hne ((perm_nil_iff hp).mpr hcon),
             fun f hf => hall f (hp.mem_iff.mpr hf)⟩
  · rw [hstat, hfind, statusOf_eq_success]
    exact (perm_nil_iff hp).symm
  · cases hs : (runValidator inp).status <;> simp [exitCode, hs]

/-- Helper: the two link-error messages are never equal (their first
characters differ). -/
lemma missing_anchor_msg_ne (a s t : String) :
    "missing anchor " ++ a ++ " on " ++ s ≠ "dangling internal link to " ++ t := by
  intro h
  have h2 : ("missing anchor " ++ a ++ " on " ++ s).data.head? =
      ("dangling internal link to " ++ t).data.head? := by rw [h]
  have h3 : ("missing anchor " ++ a ++ " on " ++ s).data.head? = some 'm' := rfl
  have h4 : ("dangling internal link to " ++ t).data.head? = some 'd' := rfl
  rw [h3, h4] at h2
  exact absurd h2 (by decide)

/-- Helper: appending to a common prefix is injective. -/
lemma string_append_left_cancel {p s t : String} (h : p ++ s = p ++ t) :
    s = t := by
  have h2 : p.data ++ s.data = p.data ++ t.data := congrArg String.data h
  have h3 := List.append_cancel_left h2
  cases s; cases t
  exact congrArg String.mk (by simpa using h3)

/-- Helper: the dangling-link Finding count of a link list equals the
number of internal links targeting the missing slug. -/
lemma count_dangling (docs : List DocumentPage) (loc slug : String)
    (hmiss : ∀ p ∈ docs, p.path ≠ slug) (L : List PageLink) :
    (L.filterMap (linkFindingOf docs loc)).count (dangFinding loc slug)
      = L.countP (isLinkTo slug) := by
  simp only [dangFinding]
  induction L with
  | nil => rfl
  | cons l rest ih =>
      cases l with
      | external u =>
          simp [linkFindingOf, List.filterMap_cons, isLinkTo, List.countP_cons, ih]
      | internal s a =>
          by_cases hs : s = slug
          · subst hs
            have hf : docs.find? (fun p => p.path == s) = none :=
              List.find?_eq_none.mpr fun p hp => by simp [hmiss p hp]
            simp [linkFindingOf, hf, List.filterMap_cons,
                  List.count_cons, List.countP_cons, isLinkTo, ih]
          · have hmsg : ("dangling internal link to " ++ s)
                ≠ ("dangling internal link to " ++ slug) :=
              fun h => hs (string_append_left_cancel h)
            cases hf : docs.find? (fun p => p.path == s) with
            | none =>
                simp [linkFindingOf, hf, List.filterMap_cons,
                      List.count_cons, isLinkTo, List.countP_cons, ih, hs, hmsg]
            | some tgt =>
                cases a with
                | none =>
                    simp [linkFindingOf, hf, List.filterMap_cons, isLinkTo,
                          List.countP_cons, ih, hs]
                | some anch =>
                    by_cases ha : anch ∈ pageAnchors tgt
                    · simp [linkFindingOf, hf, ha, List.filterMap_cons, isLinkTo,
                            List.countP_cons, ih, hs]
                    · have hmsg2 := missing_anchor_msg_ne anch s slug
                      simp [linkFindingOf, hf, ha, List.filterMap_cons,
                            List.count_cons, isLinkTo, List.countP_cons, ih, hs, hmsg2]

/-- C2: a page with exactly one internal link to a slug matching no page
yields exactly one error Finding of category `link` located at the linking
page; and when every internal link of a document set resolves (existing
target, existing anchor), the Link Graph Validator emits nothing at all —
in particular link cycles alone never produce a Finding. -/
theorem dangling_link_exactly_one (docs : List DocumentPage)
    (page : DocumentPage) (slug : String)
    (hmiss : ∀ p ∈ docs, p.path ≠ slug)
    (hone : page.links.countP (isLinkTo slug) = 1) :
    ((linkFindings docs page).count (dangFinding page.path slug) = 1
      ∧ (dangFinding page.path slug).severity = Severity.error
      ∧ (dangFinding page.path slug).category = "link"
      ∧ (dangFinding page.path slug).location = page.path)
    ∧ ∀ docs2 : List DocumentPage,
        (∀ p ∈ docs2, ∀ l ∈ p.links, resolvesIn docs2 l = true) →
        allLinkFindings docs2 = [] := by
  constructor
  · refine ⟨?_, rfl, rfl, rfl⟩
    rw [linkFindings, count_dangling docs page.path slug hmiss page.links]
    exact hone
  · intro docs2 hall
    rw [allLinkFindings, List.flatMap_eq_nil_iff]
    intro p hp
    rw [linkFindings, List.filterMap_eq_nil_iff]
    intro l hl
    cases l with
    | external u => rfl
    | internal s a =>
        have hres := hall p hp _ hl
        simp only [resolvesIn, Bool.and_eq_true] at hres
        obtain ⟨hex, hanch⟩ := hres
        rw [List.any_eq_true] at hex
        obtain ⟨q, hq, hqs⟩ := hex
        have hsome : (docs2.find? (fun p2 => p2.path == s)).isSome := by
          rw [List.find?_isSome]
          exact ⟨q, hq, hqs⟩
        obtain ⟨q2, hq2⟩ := Option.isSome_iff_exists.mp hsome
        have hq2s : q2.path = s := by simpa using List.find?_some hq2
        have hq2mem : q2 ∈ docs2 := List.mem_of_find?_eq_some hq2
        cases a with
        | none => simp [linkFindingOf, hq2]
        | some an =>
            rw [List.all_eq_true] at hanch
            have hq2a := hanch q2 hq2mem
            rw [Bool.or_eq_true] at hq2a
            rcases hq2a with hcon | hmem
            · exact absurd hq2s (by simpa using hcon)
            · simp [linkFindingOf, hq2, of_decide_eq_true hmem]

/-- Witness for C2: a single page linking to `missing-page`, and a cyclic
two-page document set that validates clean. -/
theorem dangling_link_exactly_one_witness :
    (linkFindings
        [{ path := "a", title := some "A", description := some "D",
           headings := [], codeBlocks := [],
           links := [PageLink.internal "missing-page" none] }]
        { path := "a", title := some "A", description := some "D",
          headings := [], codeBlocks := [],
          links := [PageLink.internal "missing-page" none] }).count
      (dangFinding "a" "missing-page") = 1
    ∧ allLinkFindings
        [{ path := "x", title := some "X", description := some "D",
           headings := [], codeBlocks := [],
           links := [PageLink.internal "y" none] },
         { path := "y", title := some "Y", description := some "D",
           headings := [], codeBlocks := [],
           links := [PageLink.internal "x" none] }] = [] := by
  have h := dangling_link_exactly_one
    [{ path := "a", title := some "A", description := some "D",
       headings := [], codeBlocks := [],
       links := [PageLink.internal "missing-page" none] }]
    { path := "a", title := some "A", description := some "D",
      headings := [], codeBlocks := [],
      links := [PageLink.internal "missing-page" none] }
    "missing-page" (by decide) (by decide)
  exact ⟨h.1.1, h.2 _ (by decide)⟩

/-- Helper: a list counts an element zero times when every member differs
from it. -/
lemma count_zero_of_ne_all {l : List Finding} {f : Finding}
    (h : ∀ g ∈ l, g ≠ f) : l.count f = 0 :=
  List.count_eq_zero.mpr fun hmem => (h f hmem) rfl

/-- Helper: every frontmatter Finding carries category `frontmatter`. -/
lemma mem_frontmatterFindings_cat (p : DocumentPage) :
    ∀ g ∈ frontmatterFindings p, g.category = "frontmatter" := by
  intro g hg
  unfold frontmatterFindings at hg
  rcases List.mem_append.mp hg with h | h
  · cases ht : p.title
    · rw [ht] at h; simp at h; subst h; rfl
    · rw [ht] at h; simp at h
  · cases hd : p.description
    · rw [hd] at h; simp at h; subst h; rfl
    · rw [hd] at h; simp at h

/-- Helper: every dangling-sidebar Finding carries the broken-navigation
message. -/
lemma mem_danglingSidebar_msg (docs : List DocumentPage)
    (sidebar : List SidebarEntry) :
    ∀ g ∈ danglingSidebarFindings docs sidebar,
      g.message = "sidebar slug has no page" := by
  intro g hg
  unfold danglingSidebarFindings at hg
  rw [List.mem_filterMap] at hg
  obtain ⟨e, he, hge⟩ := hg
  by_cases h : docs.any (fun p => p.path == e.slug) = true
  · simp [h] at hge
  · simp only [h, if_false, Bool.false_eq_true, Option.some.injEq] at hge
    subst hge; rfl

/-- Helper: every orphan Finding carries the orphan-content message. -/
lemma mem_orphan_msg (docs : List DocumentPage) (sidebar : List SidebarEntry) :
    ∀ g ∈ orphanFindings docs sidebar,
      g.message = "orphan page not in sidebar" := by
  intro g hg
  unfold orphanFindings at hg
  rw [List.mem_filterMap] at hg
  obtain ⟨p, hp, hgp⟩ := hg
  by_cases h1 : p.excluded = true
  · simp [h1] at hgp
  · by_cases h2 : sidebar.any (fun e => e.slug == p.path) = true
    · simp [h1, h2] at hgp
    · simp only [h1, h2, if_false, Bool.false_eq_true, Option.some.injEq] at hgp
      subst hgp; rfl

/-- Helper: every duplicate-sidebar Finding carries the duplicate-slug
message. -/
lemma mem_dupSidebar_msg (sidebar : List SidebarEntry) :
    ∀ g ∈ dupSidebarFindings sidebar,
      g.message = "duplicate sidebar slug" := by
  induction sidebar with
  | nil => intro g hg; simp [dupSidebarFindings] at hg
  | cons e rest ih =>
      intro g hg
      unfold dupSidebarFindings at hg
      rcases List.mem_append.mp hg with h | h
      · by_cases hc : rest.any (fun e2 => e2.slug == e.slug) = true
        · simp [hc] at h; subst h; rfl
        · simp [hc] at h
      · exact ih g h

/-- Helper: the dangling-sidebar Finding count equals the number of
sidebar entries carrying the missing slug. -/
lemma count_dangling_sidebar (docs : List DocumentPage)
    (sidebar : List SidebarEntry) (slug : String)
    (hdang : ∀ p ∈ docs, p.path ≠ slug) :
    (danglingSidebarFindings docs sidebar).count (sidebarDangling slug)
      = sidebar.countP (fun e => e.slug == slug) := by
  unfold danglingSidebarFindings
  induction sidebar with
  | nil => rfl
  | cons e rest ih =>
      rw [List.filterMap_cons, List.countP_cons]
      by_cases hes : e.slug = slug
      · have hany : docs.any (fun p => p.path == e.slug) = false := by
          rw [List.any_eq_false]
          intro p hp
          simp [hes, hdang p hp]
        rw [hany]
        simp only [Bool.false_eq_true, if_false]
        rw [hes, List.count_cons, ih]
        simp
      · cases hany : docs.any (fun p => p.path == e.slug)
        · simp only [Bool.false_eq_true, if_false]
          rw [List.count_cons, ih]
          have hne : ¬(sidebarDangling e.slug = sidebarDangling slug) := by
            simp only [sidebarDangling, Finding.mk.injEq]
            rintro ⟨-, -, hcon, -⟩
            exact hes hcon
          simp [hne, hes]
        · simp only [if_true]
          rw [ih]
          simp [hes]

/-- Helper: the orphan Finding count equals the number of non-excluded
pages carrying the orphan path. -/
lemma count_orphan (docs : List DocumentPage) (sidebar : List SidebarEntry)
    (path : String) (hnoside : ∀ e ∈ sidebar, e.slug ≠ path) :
    (orphanFindings docs sidebar).count (orphanWarning path)
      = docs.countP (fun q => q.path == path && !q.excluded) := by
  unfold orphanFindings
  induction docs with
  | nil => rfl
  | cons q rest ih =>
      rw [List.filterMap_cons, List.countP_cons]
      by_cases hq : q.path = path
      · have hside : sidebar.any (fun e => e.slug == q.path) = false := by
          rw [List.any_eq_false]
          intro e he
          simp [hq, hnoside e he]
        cases hex : q.excluded
        · simp only [Bool.false_eq_true, if_false]
          rw [hside]
          simp only [Bool.false_eq_true, if_false]
          rw [hq, List.count_cons, ih]
          simp [hq]
        · simp only [if_true]
          rw [ih]
          simp
      · cases hex : q.excluded
        · simp only [Bool.false_eq_true, if_false]
          cases hside : sidebar.any (fun e => e.slug == q.path)
          · simp only [Bool.false_eq_true, if_false]
            rw [List.count_cons, ih]
            have hne : ¬(orphanWarning q.path = orphanWarning path) := by
              simp only [orphanWarning, Finding.mk.injEq]
              rintro ⟨-, -, hcon, -⟩
              exact hq hcon
            simp [hne, hq]
          · simp only [if_true]
            rw [ih]
            simp [hq]
        · simp only [if_true]
          rw [ih]
          simp

/-- C4: the Structural Validator emits exactly one error Finding of
category `structure` for a sidebar slug matching no page, and exactly one
warning Finding for a non-excluded page appearing in no sidebar entry. -/
theorem sidebar_consistency (docs : List DocumentPage)
    (sidebar : List SidebarEntry) :
    (∀ slug : String, (∀ p ∈ docs, p.path ≠ slug) →
        sidebar.countP (fun e => e.slug == slug) = 1 →
        (structuralFindings docs sidebar).count (sidebarDangling slug) = 1
          ∧ (sidebarDangling slug).severity = Severity.error
          ∧ (sidebarDangling slug).category = "structure")
    ∧ (∀ path : String, (∀ e ∈ sidebar, e.slug ≠ path) →
        docs.countP (fun q => q.path == path && !q.excluded) = 1 →
        (structuralFindings docs sidebar).count (orphanWarning path) = 1
          ∧ (orphanWarning path).severity = Severity.warning
          ∧ (orphanWarning path).category = "structure") := by
  constructor
  · intro slug hdang huniq
    refine ⟨?_, rfl, rfl⟩
    unfold structuralFindings
    rw [List.count_append, List.count_append, List.count_append]
    have h1 : (docs.flatMap frontmatterFindings).count (sidebarDangling slug) = 0 := by
      apply count_zero_of_ne_all
      intro g hg hcon
      subst hcon
      rw [List.mem_flatMap] at hg
      obtain ⟨p, hp, hgp⟩ := hg
      have := mem_frontmatterFindings_cat p _ hgp
      simp [sidebarDangling] at this
    have h3 : (orphanFindings docs sidebar).count (sidebarDangling slug) = 0 := by
      apply count_zero_of_ne_all
      intro g hg hcon
      subst hcon
      have := mem_orphan_msg docs sidebar _ hg
      simp [sidebarDangling] at this
    have h4 : (dupSidebarFindings sidebar).count (sidebarDangling slug) = 0 := by
      apply count_zero_of_ne_all
      intro g hg hcon
      subst hcon
      have := mem_dupSidebar_msg sidebar _ hg
      simp [sidebarDangling] at this
    rw [h1, h3, h4, count_dangling_sidebar docs sidebar slug hdang, huniq]
  · intro path hnoside hone
    refine ⟨?_, rfl, rfl⟩
    unfold structuralFindings
    rw [List.count_append, List.count_append, List.count_append]
    have h1 : (docs.flatMap frontmatterFindings).count (orphanWarning path) = 0 := by
      apply count_zero_of_ne_all
      intro g hg hcon
      subst hcon
      rw [List.mem_flatMap] at hg
      obtain ⟨p, hp, hgp⟩ := hg
      have := mem_frontmatterFindings_cat p _ hgp
      simp [orphanWarning] at this
    have h2 : (danglingSidebarFindings docs sidebar).count (orphanWarning path) = 0 := by
      apply count_zero_of_ne_all
      intro g hg hcon
      subst hcon
      have := mem_danglingSidebar_msg docs sidebar _ hg
      simp [orphanWarning] at this
    have h4 : (dupSidebarFindings sidebar).count (orphanWarning path) = 0 := by
      apply count_zero_of_ne_all
      intro g hg hcon
      subst hcon
      have := mem_dupSidebar_msg sidebar _ hg
      simp [orphanWarning] at this
    rw [h1, h2, h4, count_orphan docs sidebar path hnoside, hone]

/-- Witness for C4: the two scenarios of the spec — sidebar slug
`api/nonexistent` with no page, and page `orphan/page` in no sidebar. -/
theorem sidebar_consistency_witness :
    (structuralFindings
        [{ path := "orphan/page", title := some "Orphan",
           description := some "D", headings := [], codeBlocks := [],
           links := [] }]
        [{ slug := "api/nonexistent", label := "Missing", group := "API" }]).count
      (sidebarDangling "api/nonexistent") = 1
    ∧ (structuralFindings
        [{ path := "orphan/page", title := some "Orphan",
           description := some "D", headings := [], codeBlocks := [],
           links := [] }]
        [{ slug := "api/nonexistent", label := "Missing", group := "API" }]).count
      (orphanWarning "orphan/page") = 1 := by
  have h := sidebar_consistency
    [{ path := "orphan/page", title := some "Orphan",
       description := some "D", headings := [], codeBlocks := [],
       links := [] }]
    [{ slug := "api/nonexistent", label := "Missing", group := "API" }]
  exact ⟨(h.1 "api/nonexistent" (by decide) (by decide)).1,
         (h.2 "orphan/page" (by decide) (by decide)).1⟩

/-- Helper: every parameter-drift Finding has warning severity. -/
lemma mem_paramWarnings_sev (c : ApiContract) (cl : DocumentedEndpointClaim) :
    ∀ f ∈ paramWarnings c cl, f.severity = Severity.warning := by
  intro f hf
  unfold paramWarnings at hf
  rw [List.mem_flatMap] at hf
  obtain ⟨e, he, hfe⟩ := hf
  rw [List.mem_filterMap] at hfe
  obtain ⟨pn, hpn, hif⟩ := hfe
  by_cases h : pn ∈ e.params
  · rw [if_pos h] at hif; exact absurd hif (by simp)
  · rw [if_neg h] at hif
    obtain rfl := Option.some.inj hif
    rfl

/-- Helper: every model-drift Finding has warning severity. -/
lemma mem_modelWarnings_sev (claims : List DocumentedEndpointClaim)
    (c : ApiContract) :
    ∀ f ∈ modelWarnings claims c, f.severity = Severity.warning := by
  intro f
  unfold modelWarnings
  cases c.models with
  | none => intro hf; simp at hf
  | some ms =>
      intro hf
      rw [List.mem_flatMap] at hf
      obtain ⟨cl, hcl, hfcl⟩ := hf
      rw [List.mem_filterMap] at hfcl
      obtain ⟨m, hmm, hif⟩ := hfcl
      by_cases h : m ∈ ms
      · rw [if_pos h] at hif; exact absurd hif (by simp)
      · rw [if_neg h] at hif
        obtain rfl := Option.some.inj hif
        rfl

/-- Helper: every coverage-gap Finding has info severity. -/
lemma mem_coverageInfos_sev (claims : List DocumentedEndpointClaim)
    (c : ApiContract) :
    ∀ f ∈ coverageInfos claims c, f.severity = Severity.info := by
  intro f hf
  unfold coverageInfos at hf
  rw [List.mem_filterMap] at hf
  obtain ⟨e, he, hif⟩ := hf
  by_cases h : claims.any (fun cl =>
      e.method == cl.method && normalizePath e.path == normalizePath cl.path) = true
  · rw [if_pos h] at hif; exact absurd hif (by simp)
  · rw [if_neg h] at hif
    obtain rfl := Option.some.inj hif
    rfl

/-- Helper: the claim-part drift-error count at a page equals the number
of unmatched claims on that page. -/
lemma countP_claimFindings (c : ApiContract) (page : String)
    (claims : List DocumentedEndpointClaim) :
    (claims.flatMap (claimFindings c)).countP
        (fun f => f.severity == Severity.error
          && f.category == "contract-drift" && f.location == page)
      = claims.countP (fun cl => !matchesClaim c cl && cl.page == page) := by
  induction claims with
  | nil => rfl
  | cons cl rest ih =>
      rw [List.flatMap_cons, List.countP_append, List.countP_cons, ih]
      cases hm : matchesClaim c cl
      · simp only [claimFindings, hm, Bool.false_eq_true, if_false]
        by_cases hp : cl.page = page
        · simp [driftError, hp, Nat.add_comm]
        · simp [driftError, hp]
      · simp only [claimFindings, hm, if_true]
        have h0 : (paramWarnings c cl).countP
            (fun f => f.severity == Severity.error
              && f.category == "contract-drift" && f.location == page) = 0 := by
          rw [List.countP_eq_zero]
          intro f hf
          have := mem_paramWarnings_sev c cl f hf
          simp [this]
        rw [h0]
        simp

/-- C5: a DocumentedEndpointClaim whose (method, normalized path template)
pair — matched exactly on method plus normalized path — has no contract
endpoint produces exactly one error Finding of category `contract-drift`
naming the claiming page. -/
theorem contract_drift_missing_endpoint (claims : List DocumentedEndpointClaim)
    (c : ApiContract) (cl : DocumentedEndpointClaim)
    (hmem : cl ∈ claims)
    (hno : matchesClaim c cl = false)
    (hone : claims.countP
        (fun cl2 => !matchesClaim c cl2 && cl2.page == cl.page) = 1) :
    (driftFindings claims c).countP
        (fun f => f.severity == Severity.error
          && f.category == "contract-drift" && f.location == cl.page) = 1
    ∧ driftError cl ∈ driftFindings claims c
    ∧ (driftError cl).severity = Severity.error
    ∧ (driftError cl).category = "contract-drift"
    ∧ (driftError cl).location = cl.page := by
  refine ⟨?_, ?_, rfl, rfl, rfl⟩
  · unfold driftFindings
    rw [List.countP_append, List.countP_append]
    have h2 : (modelWarnings claims c).countP
        (fun f => f.severity == Severity.error
          && f.category == "contract-drift" && f.location == cl.page) = 0 := by
      rw [List.countP_eq_zero]
      intro f hf
      have := mem_modelWarnings_sev claims c f hf
      simp [this]
    have h3 : (coverageInfos claims c).countP
        (fun f => f.severity == Severity.error
          && f.category == "contract-drift" && f.location == cl.page) = 0 := by
      rw [List.countP_eq_zero]
      intro f hf
      have := mem_coverageInfos_sev claims c f hf
      simp [this]
    rw [h2, h3, countP_claimFindings c cl.page claims, hone]
  · unfold driftFindings
    apply List.mem_append_left
    apply List.mem_append_left
    rw [List.mem_flatMap]
    exact ⟨cl, hmem, by simp [claimFindings, hno]⟩

/-- Witness for C5: a documented `POST /v1/fake-endpoint` against a
contract declaring only `GET /v1/models`. -/
theorem contract_drift_missing_endpoint_witness :
    (driftFindings
        [{ page := "docs/fake", method := "POST", path := "/v1/fake-endpoint",
           params := [], modelIds := [] }]
        { endpoints := [{ method := "GET", path := "/v1/models", params := [] }],
          models := none }).countP
      (fun f => f.severity == Severity.error
        && f.category == "contract-drift" && f.location == "docs/fake") = 1 := by
  have h := contract_drift_missing_endpoint
    [{ page := "docs/fake", method := "POST", path := "/v1/fake-endpoint",
       params := [], modelIds := [] }]
    { endpoints := [{ method := "GET", path := "/v1/models", params := [] }],
      models := none }
    { page := "docs/fake", method := "POST", path := "/v1/fake-endpoint",
      params := [], modelIds := [] }
    (by decide) (by decide) (by decide)
  exact h.1

/-- Helper: the fold-based unique-anchor assignment agrees with the
index-based one, for any initial seen list. -/
lemma uniquifyFrom_eq (bs : List String) : ∀ seen : List String,
    uniquifyFrom seen bs = (List.range bs.length).map fun i =>
      suffixed (bs.getD i "") ((seen ++ bs.take i).count (bs.getD i "")) := by
  induction bs with
  | nil => intro seen; rfl
  | cons a rest ih =>
      intro seen
      rw [uniquifyFrom, ih (a :: seen)]
      rw [List.length_cons, List.range_succ_eq_map, List.map_cons, List.map_map]
      congr 1
      · simp
      · apply List.map_congr_left
        intro i hi
        simp only [Function.comp]
        have hget : (a :: rest).getD (i + 1) "" = rest.getD i "" := rfl
        have htake : (a :: rest).take (i + 1) = a :: rest.take i := rfl
        rw [hget, htake]
        congr 1
        simp [List.count_append, List.count_cons]
        omega

/-- Helper: unique-anchor assignment preserves length. -/
lemma uniquifyFrom_length (bs : List String) : ∀ seen : List String,
    (uniquifyFrom seen bs).length = bs.length := by
  induction bs with
  | nil => intro seen; rfl
  | cons a rest ih => intro seen; rw [uniquifyFrom]; simp [ih]

/-- C3: the loader-computed anchor ids of a page coincide with the
expected anchor ids of the renderer (one per heading), and any internal link to
the page carrying a loader-computed anchor validates with zero Findings. -/
theorem anchor_round_trip (docs : List DocumentPage) (P : DocumentPage)
    (hfind : docs.find? (fun q => q.path == P.path) = some P) :
    (pageAnchors P = rendererAnchors P
      ∧ (pageAnchors P).length = P.headings.length)
    ∧ ∀ Q : DocumentPage,
        (∀ l ∈ Q.links, ∃ a ∈ pageAnchors P, l = PageLink.internal P.path (some a)) →
        linkFindings docs Q = [] := by
  refine ⟨⟨?_, ?_⟩, ?_⟩
  · unfold pageAnchors rendererAnchors
    rw [uniquifyFrom_eq _ []]
    simp
  · unfold pageAnchors
    rw [uniquifyFrom_length]
    simp
  · intro Q hQ
    rw [linkFindings, List.filterMap_eq_nil_iff]
    intro l hl
    obtain ⟨a, ha, rfl⟩ := hQ l hl
    simp only [linkFindingOf, hfind]
    rw [if_pos ha]

/-- Witness for C3: the headings of `api/models.md`; the link
`api/models#chat-models` of the end-to-end scenario validates clean. -/
theorem anchor_round_trip_witness :
    pageAnchors
        { path := "api/models", title := some "Models",
          description := some "List available models on the SolidRusT AI platform",
          headings := modelsHeadings, codeBlocks := [], links := [] }
      = rendererAnchors
        { path := "api/models", title := some "Models",
          description := some "List available models on the SolidRusT AI platform",
          headings := modelsHeadings, codeBlocks := [], links := [] }
    ∧ linkFindings
        [{ path := "api/models", title := some "Models",
           description := some "List available models on the SolidRusT AI platform",
           headings := modelsHeadings, codeBlocks := [], links := [] }]
        { path := "api/overview", title := some "API Overview",
          description := some "Overview of the SolidRusT AI API endpoints",
          headings := [], codeBlocks := [],
          links := [PageLink.internal "api/models" (some "chat-models")] } = [] := by
  have h := anchor_round_trip
    [{ path := "api/models", title := some "Models",
       description := some "List available models on the SolidRusT AI platform",
       headings := modelsHeadings, codeBlocks := [], links := [] }]
    { path := "api/models", title := some "Models",
      description := some "List available models on the SolidRusT AI platform",
      headings := modelsHeadings, codeBlocks := [], links := [] }
    (by decide)
  exact ⟨h.1.1, h.2 _ (by decide)⟩

/-- Helper: `findDup` finds nothing exactly on duplicate-free lists. -/
lemma findDup_eq_none_iff (l : List (String × String)) :
    findDup l = none ↔ l.Nodup := by
  induction l with
  | nil => simp [findDup]
  | cons p rest ih =>
      rw [findDup]
      by_cases h : p ∈ rest
      · simp [h]
      · simp [h, ih]

/-- C6: the API Contract Loader fails exactly when a required top-level
field is absent or a (path, method) pair is duplicated; on failure the run
collects the structural and link Findings of the document set plus the
single fatal contract Finding, and no drift Finding — the Contract Drift
Detector is skipped while Structural and Link validation still run. -/
theorem contract_load_error_behavior (raw : RawContract) :
    ((∃ e, loadContract raw = Except.error e) ↔
      (raw.hasVersionMarker = false ∨ raw.hasInfo = false ∨ raw.paths = none
        ∨ ∃ ps, raw.paths = some ps ∧ ¬(pathMethodPairs ps).Nodup))
    ∧ ∀ inp : ValidationInput, ∀ e,
        loadContract inp.rawContract = Except.error e →
        collectFindings inp
            = structuralFindings inp.docs inp.sidebar ++ allLinkFindings inp.docs
              ++ [contractFatalFinding e]
          ∧ (contractFatalFinding e).severity = Severity.error := by
  constructor
  · constructor
    · rintro ⟨e, he⟩
      by_cases h1 : raw.hasVersionMarker = true
      · by_cases h2 : raw.hasInfo = true
        · cases hp : raw.paths with
          | none => exact Or.inr (Or.inr (Or.inl rfl))
          | some ps =>
              cases hd : findDup (pathMethodPairs ps) with
              | some pm =>
                  refine Or.inr (Or.inr (Or.inr ⟨ps, rfl, fun hnd => ?_⟩))
                  rw [← findDup_eq_none_iff, hd] at hnd
                  cases hnd
              | none =>
                  exfalso
                  unfold loadContract at he
                  rw [h1, h2] at he
                  simp [hp, hd] at he
        · exact Or.inr (Or.inl (by simpa using h2))
      · exact Or.inl (by simpa using h1)
    · rintro (h | h | h | ⟨ps, hp, hdup⟩)
      · exact ⟨ContractLoadError.missingField "openapi", by simp [loadContract, h]⟩
      · by_cases h1 : raw.hasVersionMarker = true
        · exact ⟨ContractLoadError.missingField "info", by simp [loadContract, h1, h]⟩
        · exact ⟨ContractLoadError.missingField "openapi",
            by simp [loadContract, (by simpa using h1 : raw.hasVersionMarker = false)]⟩
      · by_cases h1 : raw.hasVersionMarker = true
        · by_cases h2 : raw.hasInfo = true
          · exact ⟨ContractLoadError.missingField "paths",
              by simp [loadContract, h1, h2, h]⟩
          · exact ⟨ContractLoadError.missingField "info",
              by simp [loadContract, h1, (by simpa using h2 : raw.hasInfo = false)]⟩
        · exact ⟨ContractLoadError.missingField "openapi",
            by simp [loadContract, (by simpa using h1 : raw.hasVersionMarker = false)]⟩
      · by_cases h1 : raw.hasVersionMarker = true
        · by_cases h2 : raw.hasInfo = true
          · cases hd : findDup (pathMethodPairs ps) with
            | none => exact absurd ((findDup_eq_none_iff _).mp hd) hdup
            | some pm =>
                exact ⟨ContractLoadError.duplicateEndpoint pm.1 pm.2,
                  by simp [loadContract, h1, h2, hp, hd]⟩
          · exact ⟨ContractLoadError.missingField "info",
              by simp [loadContract, h1, (by simpa using h2 : raw.hasInfo = false)]⟩
        · exact ⟨ContractLoadError.missingField "openapi",
            by simp [loadContract, (by simpa using h1 : raw.hasVersionMarker = false)]⟩
  · intro inp e he
    refine ⟨?_, rfl⟩
    unfold collectFindings
    rw [he]

/-- Witness for C6: a contract document missing its `paths` field. -/
theorem contract_load_error_behavior_witness :
    (∃ e, loadContract
        { hasVersionMarker := true, hasInfo := true, paths := none }
      = Except.error e)
    ∧ collectFindings
        { docs := [], sidebar := [],
          rawContract := { hasVersionMarker := true, hasInfo := true, paths := none } }
      = [contractFatalFinding (ContractLoadError.missingField "paths")] := by
  have h := contract_load_error_behavior
    { hasVersionMarker := true, hasInfo := true, paths := none }
  refine ⟨h.1.mpr (Or.inr (Or.inr (Or.inl rfl))), ?_⟩
  have h2 := (h.2
    { docs := [], sidebar := [],
      rawContract := { hasVersionMarker := true, hasInfo := true, paths := none } }
    (ContractLoadError.missingField "paths") rfl).1
  simpa using h2

/-- Helper: every network-check Finding has warning severity. -/
lemma mem_networkFindings_sev (checks : List (String × NetworkOutcome)) :
    ∀ f ∈ networkFindings checks, f.severity = Severity.warning := by
  intro f hf
  unfold networkFindings at hf
  rw [List.mem_filterMap] at hf
  obtain ⟨c, hc, hfc⟩ := hf
  unfold networkFinding at hfc
  by_cases h : isNetworkSuccess c.2 = true
  · rw [if_pos h] at hfc; exact absurd hfc (by simp)
  · rw [if_neg h] at hfc
    obtain rfl := Option.some.inj hfc
    rfl

/-- C7: with network checks enabled, every failed check (timeout, refused
connection, non-2xx/3xx status) becomes a warning Finding, network
Findings are never error-severity, and the checks never change the error
count or flip the run into `failure` — the run is never aborted. -/
theorem network_failures_warn_never_abort :
    (∀ url o, isNetworkSuccess o = false →
        networkFinding url o
          = some { severity := Severity.warning, category := "link",
                   location := url, message := "external link check failed" })
    ∧ (∀ url o f, networkFinding url o = some f → f.severity = Severity.warning)
    ∧ ∀ inp checks,
        (runValidatorNetwork inp checks).counts.1 = (runValidator inp).counts.1
        ∧ ((runValidatorNetwork inp checks).status = RunStatus.failure ↔
            (runValidator inp).status = RunStatus.failure) := by
  refine ⟨?_, ?_, ?_⟩
  · intro url o h
    simp [networkFinding, h]
  · intro url o f hf
    unfold networkFinding at hf
    by_cases h : isNetworkSuccess o = true
    · rw [if_pos h] at hf; exact absurd hf (by simp)
    · rw [if_neg h] at hf
      obtain rfl := Option.some.inj hf
      rfl
  · intro inp checks
    have hzero : (networkFindings checks).countP
        (fun f => f.severity == Severity.error) = 0 := by
      rw [List.countP_eq_zero]
      intro f hf
      have := mem_networkFindings_sev checks f hf
      simp [this]
    constructor
    · show (collectFindings inp ++ networkFindings checks).countP _
        = (collectFindings inp).countP _
      rw [List.countP_append, hzero]
      omega
    · show statusOf (collectFindings inp ++ networkFindings checks) = _
        ↔ statusOf (collectFindings inp) = _
      rw [statusOf_eq_failure, statusOf_eq_failure, hasError_iff, hasError_iff]
      constructor
      · rintro ⟨f, hf, hsev⟩
        rcases List.mem_append.mp hf with h | h
        · exact ⟨f, h, hsev⟩
        · exact absurd hsev (by simp [mem_networkFindings_sev checks f h])
      · rintro ⟨f, hf, hsev⟩
        exact ⟨f, List.mem_append_left _ hf, hsev⟩

/-- Witness for C7: a timed-out check produces the warning Finding. -/
theorem network_failures_warn_never_abort_witness :
    networkFinding "https://example.com" NetworkOutcome.timeout
      = some { severity := Severity.warning, category := "link",
               location := "https://example.com",
               message := "external link check failed" }
    ∧ ((runValidatorNetwork
          { docs := [], sidebar := [],
            rawContract := { hasVersionMarker := true, hasInfo := true,
                             paths := some [] } }
          [("https://example.com", NetworkOutcome.timeout)]).status
        = RunStatus.failure
      ↔ (runValidator
          { docs := [], sidebar := [],
            rawContract := { hasVersionMarker := true, hasInfo := true,
                             paths := some [] } }).status = RunStatus.failure) := by
  exact ⟨network_failures_warn_never_abort.1 "https://example.com"
           NetworkOutcome.timeout rfl,
         (network_failures_warn_never_abort.2.2
           { docs := [], sidebar := [],
             rawContract := { hasVersionMarker := true, hasInfo := true,
                              paths := some [] } }
           [("https://example.com", NetworkOutcome.timeout)]).2⟩

/-- C8: aggregation is order-independent, so two runs on identical inputs
agree — whatever order the Findings of the validators are collected in
(any permutation of the Finding multiset of the run), the status, the
per-severity counts and the grouping-key sequence of the report are
identical, and the reported Findings are the same multiset; the run
itself is the pure function `runValidator` of its input. -/
theorem idempotent_aggregation (inp : ValidationInput) (l1 l2 : List Finding)
    (h1 : l1.Perm (collectFindings inp))
    (h2 : l2.Perm (collectFindings inp)) :
    (aggregateReport l1).status = (aggregateReport l2).status
    ∧ (aggregateReport l1).counts = (aggregateReport l2).counts
    ∧ (aggregateReport l1).findings.Perm (aggregateReport l2).findings
    ∧ (aggregateReport l1).findings.map findingKey
        = (aggregateReport l2).findings.map findingKey
    ∧ runValidator inp = aggregateReport (collectFindings inp) := by
  have h12 : l1.Perm l2 := h1.trans h2.symm
  have hkey_trans : ∀ a b c : Finding,
      keyLE a b = true → keyLE b c = true → keyLE a c = true := by
    intro a b c hab hbc
    exact decide_eq_true (le_trans (of_decide_eq_true hab) (of_decide_eq_true hbc))
  have hkey_total : ∀ a b : Finding, (keyLE a b || keyLE b a) = true := by
    intro a b
    rw [Bool.or_eq_true]
    rcases le_total (findingKey a) (findingKey b) with h | h
    · exact Or.inl (decide_eq_true h)
    · exact Or.inr (decide_eq_true h)
  have hperm : ((l1.mergeSort keyLE)).Perm (l2.mergeSort keyLE) :=
    ((List.mergeSort_perm l1 keyLE).trans h12).trans
      (List.mergeSort_perm l2 keyLE).symm
  refine ⟨?_, ?_, hperm, ?_, rfl⟩
  · show statusOf l1 = statusOf l2
    have hervEq : hasError l1 = hasError l2 := by
      rw [Bool.eq_iff_iff, hasError_iff, hasError_iff]
      constructor
      · rintro ⟨f, hf, hs⟩; exact ⟨f, h12.mem_iff.mp hf, hs⟩
      · rintro ⟨f, hf, hs⟩; exact ⟨f, h12.mem_iff.mpr hf, hs⟩
    have hempEq : l1.isEmpty = l2.isEmpty := by
      rw [Bool.eq_iff_iff, List.isEmpty_iff, List.isEmpty_iff]
      exact perm_nil_iff h12
    unfold statusOf
    rw [hervEq, hempEq]
  · show (_, _, _) = (_, _, _)
    rw [h12.countP_eq, h12.countP_eq, h12.countP_eq]
  · have hs1 := List.sorted_mergeSort hkey_trans hkey_total l1
    have hs2 := List.sorted_mergeSort hkey_trans hkey_total l2
    exact List.eq_of_perm_of_sorted (hperm.map findingKey)
      (List.Pairwise.map findingKey (fun a b h => of_decide_eq_true h) hs1)
      (List.Pairwise.map findingKey (fun a b h => of_decide_eq_true h) hs2)

/-- Witness for C8: two collection orders of the same two Findings. -/
theorem idempotent_aggregation_witness :
    (aggregateReport [sidebarDangling "b", sidebarDangling "a"]).status
      = (aggregateReport [sidebarDangling "a", sidebarDangling "b"]).status
    ∧ (aggregateReport [sidebarDangling "b", sidebarDangling "a"]).findings.map findingKey
      = (aggregateReport [sidebarDangling "a", sidebarDangling "b"]).findings.map findingKey := by
  have h := idempotent_aggregation
    { docs := [],
      sidebar := [{ slug := "a", label := "A", group := "G" },
                  { slug := "b", label := "B", group := "G" }],
      rawContract := { hasVersionMarker := true, hasInfo := true,
                       paths := some [] } }
    [sidebarDangling "b", sidebarDangling "a"]
    [sidebarDangling "a", sidebarDangling "b"]
    (by decide) (by decide)
  exact ⟨h.1, h.2.2.2.1⟩

/-- Witness for C10 at the quickstart page. -/
theorem repo_frontmatter_complete_witness :
    ∃ p ∈ repoFrontmatterPages,
      p.path = "getting-started/quickstart" ∧ frontmatterFindings p = [] := by
  refine ⟨{ path := "getting-started/quickstart", title := some "Quick Start",
            description := some "Make your first API call to SolidRusT AI",
            headings := [], codeBlocks := [], links := [] }, by decide, by decide, ?_⟩
  exact (repo_frontmatter_complete _ (by decide)).2.2.2.2

end DocsValidator
